/-
Verification of the fan-control core of `nvidia_fan_manager.py`.

Python floats are modelled as rationals (ℚ): every operation the core
performs on them (comparison, `max`/`min`, subtraction, `abs`) is exact
on the literals involved, so ℚ is a faithful carrier.

Section 1: the fan curve (`FanCurve.value`, source lines 181-204).
-/
import Mathlib

/-- A curve point, mirroring the `CurvePoint` dataclass (temperature, speed). -/
structure CurvePoint where
  temperature : ℚ
  speed : ℚ
deriving DecidableEq, Repr, Inhabited

/-- The ordering the source sorts curve points by: `key=lambda p: p.temperature`. -/
def curveLE (a b : CurvePoint) : Prop := a.temperature ≤ b.temperature

instance : DecidableRel curveLE := fun a b =>
  inferInstanceAs (Decidable (a.temperature ≤ b.temperature))

instance : IsTotal CurvePoint curveLE := ⟨fun a b => le_total a.temperature b.temperature⟩

instance : IsTrans CurvePoint curveLE := ⟨fun _ _ _ h h2 => le_trans h h2⟩

/-- `sorted(points, key=lambda p: p.temperature)` — Python's sort is stable;
`List.insertionSort` is stable in the same sense (earlier elements stay before
later elements with an equal key). -/
def sortPoints (pts : List CurvePoint) : List CurvePoint := pts.insertionSort curveLE

/-- The loop of `FanCurve.value`: starting from `chosen`, walk the points,
replacing `chosen` whenever `temperature >= point.temperature`, and `break`
at the first point with a larger temperature (source lines 199-203). -/
def valueAux (t : ℚ) (chosen : ℚ) : List CurvePoint → ℚ
  | [] => chosen
  | p :: rest => if p.temperature ≤ t then valueAux t p.speed rest else chosen

/-- `FanCurve.value(temperature)` over the stored (sorted) point list:
`chosen` starts at `self._points[0].speed` and the loop runs over all points
(source lines 197-204). On the empty list — impossible for a constructed
curve, whose constructor rejects empty input — we return 0. -/
def FanCurve.value (pts : List CurvePoint) (t : ℚ) : ℚ :=
  match pts with
  | [] => 0
  | p :: rest => valueAux t p.speed (p :: rest)

/-- The `FanCurve` constructor: rejects an empty point list
(`Fan curve requires at least one point`), otherwise stores the points
sorted by temperature (source lines 182-185). -/
def FanCurve.build (pts : List CurvePoint) : Option (List CurvePoint) :=
  if pts.isEmpty then none else some (sortPoints pts)

/-- Modelled from the spec wording for claim C1 (refinement reading):
"return the speed of the last point whose temperature is ≤ the sample;
if the sample is below the lowest point's temperature, return the lowest
point's speed". -/
def FanCurve.specValue (pts : List CurvePoint) (t : ℚ) : ℚ :=
  match (pts.filter (fun p => p.temperature ≤ t)).getLast? with
  | some p => p.speed
  | none => pts.headI.speed

theorem valueAux_eq_getLastD (t chosen : ℚ) (l : List CurvePoint) :
    valueAux t chosen l =
      ((l.takeWhile (fun p => p.temperature ≤ t)).map (fun p => p.speed)).getLastD chosen := by
  induction l generalizing chosen with
  | nil => rfl
  | cons p rest ih =>
    by_cases h : p.temperature ≤ t
    · rw [List.takeWhile_cons_of_pos (by simpa using h)]
      simp only [valueAux, if_pos h, List.map_cons, List.getLastD_cons]
      exact ih p.speed
    · rw [List.takeWhile_cons_of_neg (by simpa using h)]
      simp [valueAux, if_neg h]

theorem valueAux_mem (t chosen : ℚ) (l : List CurvePoint) :
    valueAux t chosen l = chosen ∨ ∃ p ∈ l, valueAux t chosen l = p.speed := by
  induction l generalizing chosen with
  | nil => exact Or.inl rfl
  | cons p rest ih =>
    by_cases h : p.temperature ≤ t
    · simp only [valueAux, if_pos h]
      rcases ih p.speed with h1 | ⟨q, hq, hval⟩
      · exact Or.inr ⟨p, List.mem_cons_self p rest, h1⟩
      · exact Or.inr ⟨q, List.mem_cons_of_mem p hq, hval⟩
    · simp [valueAux, if_neg h]

/-- On a list sorted by temperature, filtering `temperature ≤ t` is the same
as taking the initial prefix satisfying it. -/
theorem sorted_filter_eq_takeWhile (t : ℚ) (l : List CurvePoint)
    (hs : l.Sorted curveLE) :
    l.filter (fun p => p.temperature ≤ t) = l.takeWhile (fun p => p.temperature ≤ t) := by
  induction l with
  | nil => rfl
  | cons p rest ih =>
    rcases List.sorted_cons.mp hs with ⟨hp, hrest⟩
    by_cases h : p.temperature ≤ t
    · rw [List.takeWhile_cons_of_pos (by simpa using h),
        List.filter_cons_of_pos (by simpa using h)]
      exact congrArg (p :: ·) (ih hrest)
    · rw [List.takeWhile_cons_of_neg (by simpa using h),
        List.filter_cons_of_neg (by simpa using h)]
      apply List.filter_eq_nil_iff.mpr
      intro q hq
      simp only [decide_eq_true_eq]
      intro hqt
      exact h (le_trans (hp q hq) hqt)

theorem sorted_temp_le_of_getLast? (l : List CurvePoint) (hs : l.Sorted curveLE)
    (hi : CurvePoint) (hl : l.getLast? = some hi) (q : CurvePoint) (hq : q ∈ l) :
    q.temperature ≤ hi.temperature := by
  obtain ⟨ys, rfl⟩ := List.getLast?_eq_some_iff.mp hl
  rcases List.mem_append.mp hq with h1 | h2
  · exact (List.pairwise_append.mp hs).2.2 q h1 hi (List.mem_singleton_self hi)
  · rw [List.mem_singleton.mp h2]

theorem build_sorted (pts sorted : List CurvePoint) (hb : FanCurve.build pts = some sorted) :
    sorted.Sorted curveLE ∧ sorted ≠ [] := by
  unfold FanCurve.build at hb
  by_cases he : pts.isEmpty
  · simp [he] at hb
  · simp only [he, Bool.false_eq_true, if_false, Option.some.injEq] at hb
    subst hb
    refine ⟨List.sorted_insertionSort curveLE pts, ?_⟩
    intro hnil
    have hlen := (List.perm_insertionSort curveLE pts).length_eq
    rw [show sortPoints pts = pts.insertionSort curveLE from rfl] at hnil
    rw [hnil] at hlen
    simp only [List.length_nil] at hlen
    exact he (List.isEmpty_iff_length_eq_zero.mpr hlen.symm)

/-- C1: for a curve built from a non-empty point list, `FanCurve.value t`
returns the speed of the last stored point with temperature ≤ t; below the
lowest point's temperature it returns the lowest point's speed, and at or
above the highest point's temperature it returns the highest point's speed. -/
theorem C1_value_is_right_continuous_step (pts : List CurvePoint) (t : ℚ)
    (sorted : List CurvePoint) (hb : FanCurve.build pts = some sorted) :
    FanCurve.value sorted t = FanCurve.specValue sorted t
    ∧ (∀ lo ∈ sorted.head?, t < lo.temperature → FanCurve.value sorted t = lo.speed)
    ∧ (∀ hi ∈ sorted.getLast?, hi.temperature ≤ t → FanCurve.value sorted t = hi.speed) := by
  obtain ⟨hsort, hne⟩ := build_sorted pts sorted hb
  obtain ⟨p, rest, rfl⟩ := List.exists_cons_of_ne_nil hne
  have hval : FanCurve.value (p :: rest) t =
      (((p :: rest).takeWhile (fun q => q.temperature ≤ t)).map
        (fun q => q.speed)).getLastD p.speed := by
    rw [show FanCurve.value (p :: rest) t = valueAux t p.speed (p :: rest) from rfl]
    exact valueAux_eq_getLastD t p.speed (p :: rest)
  have hfil := sorted_filter_eq_takeWhile t (p :: rest) hsort
  refine ⟨?_, ?_, ?_⟩
  · unfold FanCurve.specValue
    rw [hfil, hval]
    by_cases hp : p.temperature ≤ t
    · rw [List.takeWhile_cons_of_pos (by simpa using hp)]
      have hne2 : p :: rest.takeWhile (fun q => q.temperature ≤ t) ≠ [] := by simp
      obtain ⟨q, hq⟩ := Option.isSome_iff_exists.mp
        (List.getLast?_isSome.mpr hne2)
      rw [hq, List.getLastD_eq_getLast?, List.getLast?_map, hq]
      rfl
    · rw [List.takeWhile_cons_of_neg (by simpa using hp)]
      rfl
  · intro lo hlo hlt
    have hpl : p = lo := by simpa using hlo
    subst hpl
    rw [hval, List.takeWhile_cons_of_neg (by simp [not_le.mpr hlt])]
    rfl
  · intro hi hhi hle
    have hall : ∀ q ∈ p :: rest, q.temperature ≤ t := fun q hq =>
      le_trans (sorted_temp_le_of_getLast? _ hsort hi hhi q hq) hle
    rw [hval, List.takeWhile_eq_self_iff.mpr (by simpa using hall),
      List.getLastD_eq_getLast?, List.getLast?_map, hhi]
    rfl

/-- Witness for C1 at the concrete unsorted input `[(50,45),(30,25)]` and t = 40. -/
theorem C1_witness :
    FanCurve.value [⟨30, 25⟩, ⟨50, 45⟩] 40 = FanCurve.specValue [⟨30, 25⟩, ⟨50, 45⟩] 40
    ∧ (∀ lo ∈ ([⟨30, 25⟩, ⟨50, 45⟩] : List CurvePoint).head?, 40 < lo.temperature →
        FanCurve.value [⟨30, 25⟩, ⟨50, 45⟩] 40 = lo.speed)
    ∧ (∀ hi ∈ ([⟨30, 25⟩, ⟨50, 45⟩] : List CurvePoint).getLast?, hi.temperature ≤ 40 →
        FanCurve.value [⟨30, 25⟩, ⟨50, 45⟩] 40 = hi.speed) :=
  C1_value_is_right_continuous_step [⟨50, 45⟩, ⟨30, 25⟩] 40 [⟨30, 25⟩, ⟨50, 45⟩] (by decide)

/-- Speeds non-decreasing along the point list. -/
def speedLE (a b : CurvePoint) : Prop := a.speed ≤ b.speed

instance : DecidableRel speedLE := fun a b =>
  inferInstanceAs (Decidable (a.speed ≤ b.speed))

theorem valueAux_mono (l : List CurvePoint) (c t1 t2 : ℚ) (h12 : t1 ≤ t2)
    (hc : ∀ q ∈ l, c ≤ q.speed) (hs : l.Sorted speedLE) :
    valueAux t1 c l ≤ valueAux t2 c l := by
  induction l generalizing c with
  | nil => exact le_refl c
  | cons p rest ih =>
    rcases List.sorted_cons.mp hs with ⟨hp, hrest⟩
    by_cases h1 : p.temperature ≤ t1
    · rw [show valueAux t1 c (p :: rest) = valueAux t1 p.speed rest from by
        simp [valueAux, if_pos h1]]
      rw [show valueAux t2 c (p :: rest) = valueAux t2 p.speed rest from by
        simp [valueAux, if_pos (le_trans h1 h12)]]
      exact ih p.speed hp hrest
    · rw [show valueAux t1 c (p :: rest) = c from by simp [valueAux, if_neg h1]]
      by_cases h2 : p.temperature ≤ t2
      · rw [show valueAux t2 c (p :: rest) = valueAux t2 p.speed rest from by
          simp [valueAux, if_pos h2]]
        rcases valueAux_mem t2 p.speed rest with hm | ⟨q, hq, hm⟩
        · rw [hm]; exact hc p (List.mem_cons_self p rest)
        · rw [hm]; exact hc q (List.mem_cons_of_mem p hq)
      · rw [show valueAux t2 c (p :: rest) = c from by simp [valueAux, if_neg h2]]

/-- C7 counterexample: a constructed curve whose speeds decrease with
temperature makes `FanCurve.value` non-monotone (value 80 at t = 15,
value 30 at t = 25). -/
theorem C7_counterexample :
    FanCurve.build [⟨10, 80⟩, ⟨20, 30⟩] = some [⟨10, 80⟩, ⟨20, 30⟩]
    ∧ (15 : ℚ) ≤ 25
    ∧ ¬ FanCurve.value [⟨10, 80⟩, ⟨20, 30⟩] 15 ≤ FanCurve.value [⟨10, 80⟩, ⟨20, 30⟩] 25 := by
  decide

/-- C7 (amended): for a curve built from a non-empty point list whose stored
points also have non-decreasing speeds, `FanCurve.value` is monotone
non-decreasing in the temperature. -/
theorem C7_value_monotone (pts sorted : List CurvePoint)
    (hb : FanCurve.build pts = some sorted)
    (hspeed : sorted.Sorted speedLE) (t1 t2 : ℚ) (h12 : t1 ≤ t2) :
    FanCurve.value sorted t1 ≤ FanCurve.value sorted t2 := by
  obtain ⟨_, hne⟩ := build_sorted pts sorted hb
  obtain ⟨p, rest, rfl⟩ := List.exists_cons_of_ne_nil hne
  rcases List.sorted_cons.mp hspeed with ⟨hp, _⟩
  have hc : ∀ q ∈ p :: rest, p.speed ≤ q.speed := by
    intro q hq
    rcases List.mem_cons.mp hq with rfl | hq2
    · exact le_refl _
    · exact hp q hq2
  exact valueAux_mono (p :: rest) p.speed t1 t2 h12 hc hspeed

/-- Witness for C7 (amended) at the concrete curve `[(30,25),(50,45)]`,
t1 = 20, t2 = 60. -/
theorem C7_witness :
    FanCurve.value [⟨30, 25⟩, ⟨50, 45⟩] 20 ≤ FanCurve.value [⟨30, 25⟩, ⟨50, 45⟩] 60 :=
  C7_value_monotone [⟨30, 25⟩, ⟨50, 45⟩] [⟨30, 25⟩, ⟨50, 45⟩] (by decide) (by decide)
    20 60 (by norm_num)

/-
Section 2: profiles, the hysteresis gate and the apply step
(`ManagedProfile`, `FanManager.should_apply`, `FanManager.apply_speed`,
per-profile body of `FanManager.loop_once`; source lines 341-437).
The NVML controller is the only effectful collaborator: the temperature it
reports is an input, and the speed handed to `set_fan_speed` is an output.
-/

/-- Python's two-argument `max` (returns the first argument on ties),
written with an explicit `if` so that it evaluates by `decide`. -/
def pymax (a b : ℚ) : ℚ := if b ≤ a then a else b

/-- Python's two-argument `min` (returns the first argument on ties). -/
def pymin (a b : ℚ) : ℚ := if a ≤ b then a else b

/-- Python's `abs` on a rational. -/
def pyabs (a : ℚ) : ℚ := if a < 0 then -a else a

theorem pymax_eq_max (a b : ℚ) : pymax a b = max a b := by
  unfold pymax
  rw [max_def]
  rcases le_total a b with h | h
  · rcases eq_or_lt_of_le h with rfl | hlt
    · simp
    · rw [if_neg (not_le.mpr hlt), if_pos h]
  · rw [if_pos h]
    rcases eq_or_lt_of_le h with rfl | hlt
    · simp
    · rw [if_neg (not_le.mpr hlt)]

theorem pymin_eq_min (a b : ℚ) : pymin a b = min a b := by
  unfold pymin
  rw [min_def]

theorem pyabs_eq_abs (a : ℚ) : pyabs a = |a| := by
  unfold pyabs
  rcases lt_or_ge a 0 with h | h
  · rw [if_pos h, abs_of_neg h]
  · rw [if_neg (not_lt.mpr h), abs_of_nonneg h]

/-- Runtime state of a `ManagedProfile`: identity, curve points (stored
sorted by the `FanCurve` constructor), hysteresis, the NVML session it owns,
and the last applied speed / observed temperature (`none` = never applied). -/
structure ProfileState where
  gpu_index : ℤ
  fan_index : ℤ
  points : List CurvePoint
  hysteresis : ℚ
  session : ℕ
  last_speed : Option ℚ := none
  last_temp : Option ℚ := none
deriving DecidableEq, Repr

/-- `FanManager.should_apply` (source lines 396-401): always true on the
first cycle, otherwise true iff `abs(target - last) >= max(0.5, hysteresis)`. -/
def should_apply (p : ProfileState) (target_speed : ℚ) : Bool :=
  match p.last_speed with
  | none => true
  | some ls => decide (pymax 0.5 p.hysteresis ≤ pyabs (target_speed - ls))

/-- `FanManager.apply_speed` (source lines 403-408): clamp the target into
[10, 100], command the hardware with the clamped value (returned as the
second component), and record the applied speed and observed temperature. -/
def apply_speed (p : ProfileState) (target_speed temperature : ℚ) : ProfileState × ℚ :=
  let clamped := pymax 10 (pymin 100 target_speed)
  ({ p with last_speed := some clamped, last_temp := some temperature }, clamped)

/-- The per-profile body of `FanManager.loop_once` (source lines 416-430):
read the temperature, evaluate the curve, gate on hysteresis, apply or skip.
The second component is the speed commanded to `set_fan_speed`, if any. -/
def loopStep (p : ProfileState) (temperature : ℚ) : ProfileState × Option ℚ :=
  let target := FanCurve.value p.points temperature
  if should_apply p target then
    let r := apply_speed p target temperature
    (r.1, some r.2)
  else
    (p, none)

/-- Iterate `loopStep` over a temperature sequence, collecting the commanded
speeds (`none` = cycle skipped by the hysteresis gate). -/
def runTemps (p : ProfileState) : List ℚ → List (Option ℚ)
  | [] => []
  | t :: ts => (loopStep p t).2 :: runTemps (loopStep p t).1 ts

/-- A profile with hysteresis 2 whose last applied speed is 50, for the
boundary instances of claim C2. -/
def profileLast50 : ProfileState :=
  { gpu_index := 0, fan_index := 0, points := [⟨30, 25⟩], hysteresis := 2,
    session := 0, last_speed := some 50, last_temp := none }

/-- C2: `should_apply` is true when no speed was ever applied; otherwise it
is true iff `|target - last| ≥ max(0.5, hysteresis)`, boundary inclusive:
with last = 50 and hysteresis = 2 it is false at 51.4 and true at 52. -/
theorem C2_should_apply_gate (p : ProfileState) (target : ℚ) :
    (p.last_speed = none → should_apply p target = true)
    ∧ (∀ ls, p.last_speed = some ls →
        (should_apply p target = true ↔ max 0.5 p.hysteresis ≤ |target - ls|))
    ∧ should_apply profileLast50 51.4 = false
    ∧ should_apply profileLast50 52 = true := by
  refine ⟨?_, ?_, by norm_num [should_apply, profileLast50, pymax, pyabs],
    by norm_num [should_apply, profileLast50, pymax, pyabs]⟩
  · intro h
    simp [should_apply, h]
  · intro ls h
    simp [should_apply, h, pymax_eq_max, pyabs_eq_abs]

/-- Witness for C2 at the concrete profile with last applied speed 50. -/
theorem C2_witness :
    (should_apply profileLast50 52 = true ↔
      max 0.5 profileLast50.hysteresis ≤ |52 - 50|)
    ∧ should_apply profileLast50 51.4 = false
    ∧ should_apply profileLast50 52 = true :=
  ⟨(C2_should_apply_gate profileLast50 52).2.1 50 rfl,
    (C2_should_apply_gate profileLast50 52).2.2.1,
    (C2_should_apply_gate profileLast50 52).2.2.2⟩

/-- C3: `apply_speed` commands a speed inside [10, 100] whatever the curve
produced, and records the clamped speed and the observed temperature as the
profile's new last state. -/
theorem C3_apply_speed_clamps (p : ProfileState) (target temperature : ℚ) :
    10 ≤ (apply_speed p target temperature).2
    ∧ (apply_speed p target temperature).2 ≤ 100
    ∧ (apply_speed p target temperature).1.last_speed =
        some (apply_speed p target temperature).2
    ∧ (apply_speed p target temperature).1.last_temp = some temperature := by
  have h2 : (apply_speed p target temperature).2 = max 10 (min 100 target) := by
    simp [apply_speed, pymax_eq_max, pymin_eq_min]
  refine ⟨?_, ?_, rfl, rfl⟩
  · rw [h2]
    exact le_max_left 10 _
  · rw [h2]
    exact max_le (by norm_num) (min_le_left 100 target)

/-- C10: the hysteresis gate compares the unclamped curve target with the
clamped last applied speed. If the curve target at some temperature is below
10, the first cycle applies (and records) 10; and whenever
`10 - target ≥ max(0.5, hysteresis)`, the gate passes again at the same
temperature and the write of 10 is re-issued with the state left fixed —
so it re-issues on every subsequent cycle. -/
theorem C10_floor_reapplies_each_cycle (p : ProfileState) (temperature : ℚ)
    (hlast : p.last_speed = none)
    (hlow : FanCurve.value p.points temperature < 10) :
    (loopStep p temperature).2 = some 10
    ∧ (loopStep p temperature).1.last_speed = some 10
    ∧ (max 0.5 p.hysteresis ≤ 10 - FanCurve.value p.points temperature →
        should_apply (loopStep p temperature).1 (FanCurve.value p.points temperature) = true
        ∧ loopStep (loopStep p temperature).1 temperature =
            ((loopStep p temperature).1, some 10)) := by
  obtain ⟨g, f, pts, hy, s, ls, lt⟩ := p
  simp only at hlast hlow ⊢
  subst hlast
  have hmin : pymin 100 (FanCurve.value pts temperature) = FanCurve.value pts temperature := by
    unfold pymin
    rw [if_neg]
    intro h100
    exact absurd (lt_of_le_of_lt h100 hlow) (by norm_num)
  have hclamp : pymax 10 (pymin 100 (FanCurve.value pts temperature)) = 10 := by
    rw [hmin]
    unfold pymax
    rw [if_pos (le_of_lt hlow)]
  have hstep : loopStep ⟨g, f, pts, hy, s, none, lt⟩ temperature =
      (⟨g, f, pts, hy, s, some 10, some temperature⟩, some 10) := by
    simp [loopStep, should_apply, apply_speed, hclamp]
  refine ⟨by rw [hstep], by rw [hstep], ?_⟩
  intro hthr
  have habs : pyabs (FanCurve.value pts temperature - 10) =
      10 - FanCurve.value pts temperature := by
    unfold pyabs
    rw [if_pos (sub_neg.mpr hlow), neg_sub]
  have hsa2 : should_apply ⟨g, f, pts, hy, s, some 10, some temperature⟩
      (FanCurve.value pts temperature) = true := by
    simp only [should_apply, habs, pymax_eq_max]
    exact decide_eq_true hthr
  refine ⟨by rw [hstep]; exact hsa2, ?_⟩
  rw [hstep]
  simp [loopStep, hsa2, apply_speed, hclamp]

/-- A profile with a single curve point at 5% speed and hysteresis 2, for the
C10 witness. -/
def c10Profile : ProfileState :=
  { gpu_index := 0, fan_index := 0, points := [⟨30, 5⟩], hysteresis := 2, session := 0 }

/-- Witness for C10: on `c10Profile` at temperature 40 the curve target is 5. -/
theorem C10_witness :
    (loopStep c10Profile 40).2 = some 10
    ∧ (loopStep c10Profile 40).1.last_speed = some 10
    ∧ (max 0.5 c10Profile.hysteresis ≤ 10 - FanCurve.value c10Profile.points 40 →
        should_apply (loopStep c10Profile 40).1 (FanCurve.value c10Profile.points 40) = true
        ∧ loopStep (loopStep c10Profile 40).1 40 = ((loopStep c10Profile 40).1, some 10)) :=
  C10_floor_reapplies_each_cycle c10Profile 40 rfl
    (by norm_num [c10Profile, FanCurve.value, valueAux])

/-- The profile of the C6 end-to-end scenario: curve `[(30,25),(50,45),(70,75)]`
(stored sorted, as the `FanCurve` constructor does), hysteresis 2, and no
speed applied yet. -/
def c6Profile : ProfileState :=
  { gpu_index := 0, fan_index := 0,
    points := sortPoints [⟨30, 25⟩, ⟨50, 45⟩, ⟨70, 75⟩],
    hysteresis := 2, session := 0 }

/-
Section 3: the manager, sessions, reload and the one-shot mode
(`FanManager.set_profiles`, `reload_config`, `build_managed_profiles`, the
`--once` branch of `main`; source lines 363-488 and 645-663).
NVML sessions are modelled as numbered handles in a `World`: opening a
controller draws a fresh id, closing it removes the id from the open set.
Whether opening a given device/fan succeeds is an oracle (`canOpen`).
-/

/-- The pool of NVML sessions: the next fresh handle and the open handles. -/
structure World where
  nextSession : ℕ
  openSessions : List ℕ
deriving DecidableEq, Repr

/-- `NvmlController.__init__`: allocate a fresh session handle. -/
def openSession (w : World) : ℕ × World :=
  (w.nextSession, ⟨w.nextSession + 1, w.openSessions ++ [w.nextSession]⟩)

/-- `NvmlController.shutdown`: release a session handle. -/
def closeSession (w : World) (s : ℕ) : World :=
  { w with openSessions := w.openSessions.filter (fun x => x ≠ s) }

/-- Well-formedness: every open handle was drawn from the counter. -/
def World.wf (w : World) : Prop := ∀ s ∈ w.openSessions, s < w.nextSession

/-- Close the sessions of a profile list in order (`_close_profiles` /
the cleanup loop of `build_managed_profiles`). -/
def closeProfilesSessions (w : World) (ps : List ProfileState) : World :=
  ps.foldl (fun w2 p => closeSession w2 p.session) w

/-- One profile entry of a (normalized) configuration snapshot. -/
structure ProfileCfg where
  gpu_index : ℤ
  fan_index : ℤ
  curve : List CurvePoint
  hysteresis : ℚ
deriving DecidableEq, Repr

/-- A structured configuration snapshot as `load_config` returns it. -/
structure Config where
  poll_interval : ℚ
  profiles : List ProfileCfg
deriving DecidableEq, Repr

/-- The construction loop of `build_managed_profiles` (source lines 467-488):
build each entry's curve, open its controller session, accumulate the managed
profiles; on the first failure close every session opened so far (in order)
and fail. `canOpen` is the hardware oracle deciding whether
`NvmlController(gpu_index, fan_index)` succeeds for an entry. -/
def buildAux (canOpen : ProfileCfg → Bool) (acc : List ProfileState) (w : World) :
    List ProfileCfg → Option (List ProfileState) × World
  | [] => (some acc, w)
  | e :: rest =>
    match FanCurve.build e.curve with
    | none => (none, closeProfilesSessions w acc)
    | some sorted =>
      if canOpen e then
        buildAux canOpen
          (acc ++ [⟨e.gpu_index, e.fan_index, sorted, e.hysteresis, w.nextSession, none, none⟩])
          (openSession w).2 rest
      else
        (none, closeProfilesSessions w acc)

/-- `build_managed_profiles(cfg)`. -/
def build_managed_profiles (canOpen : ProfileCfg → Bool) (cfg : Config) (w : World) :
    Option (List ProfileState) × World :=
  buildAux canOpen [] w cfg.profiles

/-- `ManagedProfile.close(restore_auto)` as an observable event: which fan was
closed and whether automatic control was restored first. -/
structure CloseEvent where
  gpu_index : ℤ
  fan_index : ℤ
  restore : Bool
deriving DecidableEq, Repr

/-- The daemon state the reload protocol manipulates. -/
structure Manager where
  profiles : List ProfileState
  poll_interval : ℚ
  restore_on_exit : Bool
deriving DecidableEq, Repr

/-- `FanManager.set_profiles` (source lines 387-389): close the current
profiles with `restore=self.restore_on_exit`, then install the new list.
Returns the new state, the session pool, and the close events. -/
def set_profiles (m : Manager) (w : World) (new : List ProfileState) :
    Manager × World × List CloseEvent :=
  ({ m with profiles := new },
   closeProfilesSessions w m.profiles,
   m.profiles.map (fun p => ⟨p.gpu_index, p.fan_index, m.restore_on_exit⟩))

/-- `FanManager.reload_config` (source lines 449-464). `loadResult` is the
outcome of `load_config` (`none` = it raised). On a failed build the `locals()`
guard closes nothing: `new_profiles` was never assigned, and
`build_managed_profiles` already closed its partial batch. -/
def reload_config (m : Manager) (w : World) (loadResult : Option Config)
    (canOpen : ProfileCfg → Bool) : Manager × World × List CloseEvent :=
  match loadResult with
  | none => (m, w, [])
  | some cfg =>
    match build_managed_profiles canOpen cfg w with
    | (none, w2) => (m, w2, [])
    | (some newps, w2) =>
      set_profiles { m with poll_interval := pymax 0.5 cfg.poll_interval } w2 newps

theorem closeProfilesSessions_open (ps : List ProfileState) :
    ∀ w : World, (closeProfilesSessions w ps).openSessions =
      w.openSessions.filter (fun s => decide (∀ q ∈ ps, s ≠ q.session)) := by
  induction ps with
  | nil =>
    intro w
    simp [closeProfilesSessions]
  | cons p rest ih =>
    intro w
    rw [show closeProfilesSessions w (p :: rest) =
      closeProfilesSessions (closeSession w p.session) rest from rfl, ih]
    show (w.openSessions.filter _).filter _ = _
    rw [List.filter_filter]
    apply List.filter_congr
    intro a _
    simp [List.forall_mem_cons, Bool.and_comm]

/-- A profile closed by `closeProfilesSessions` does not keep its session open. -/
theorem closed_session_not_open (w : World) (ps : List ProfileState)
    (p : ProfileState) (hp : p ∈ ps) :
    p.session ∉ (closeProfilesSessions w ps).openSessions := by
  rw [closeProfilesSessions_open]
  intro hmem
  have h2 := (List.mem_filter.mp hmem).2
  simp only [decide_eq_true_eq] at h2
  exact h2 p hp rfl

/-- When the construction loop fails, every session it opened is closed again:
the open-session pool is exactly what it was before the attempt. -/
theorem buildAux_fail_open (canOpen : ProfileCfg → Bool) (es : List ProfileCfg) :
    ∀ (acc : List ProfileState) (w w0 : World),
      World.wf w0 →
      w.openSessions = w0.openSessions ++ acc.map ProfileState.session →
      w0.nextSession ≤ w.nextSession →
      (∀ p ∈ acc, w0.nextSession ≤ p.session) →
      (buildAux canOpen acc w es).1 = none →
      ((buildAux canOpen acc w es).2).openSessions = w0.openSessions := by
  induction es with
  | nil =>
    intro acc w w0 _ _ _ _ hfail
    simp [buildAux] at hfail
  | cons e rest ih =>
    intro acc w w0 hwf hopen hnext hacc hfail
    have hclose : (closeProfilesSessions w acc).openSessions = w0.openSessions := by
      rw [closeProfilesSessions_open, hopen, List.filter_append]
      have h1 : w0.openSessions.filter (fun s => decide (∀ q ∈ acc, s ≠ q.session)) =
          w0.openSessions := by
        apply List.filter_eq_self.mpr
        intro s hs
        simp only [decide_eq_true_eq]
        intro q hq
        exact Nat.ne_of_lt (lt_of_lt_of_le (hwf s hs) (hacc q hq))
      have h2 : (acc.map ProfileState.session).filter
          (fun s => decide (∀ q ∈ acc, s ≠ q.session)) = [] := by
        apply List.filter_eq_nil_iff.mpr
        intro s hs
        obtain ⟨q, hq, rfl⟩ := List.mem_map.mp hs
        simp only [decide_eq_true_eq]
        push_neg
        exact ⟨q, hq, rfl⟩
      rw [h1, h2, List.append_nil]
    cases hb : FanCurve.build e.curve with
    | none =>
      simp only [buildAux, hb] at hfail ⊢
      exact hclose
    | some sorted =>
      by_cases hc : canOpen e
      · simp only [buildAux, hb, if_pos hc] at hfail ⊢
        apply ih _ _ w0 hwf ?_ ?_ ?_ hfail
        · simp only [openSession, hopen, List.map_append, List.map_cons, List.map_nil]
          simp [List.append_assoc]
        · exact le_trans hnext (Nat.le_succ _)
        · intro p hp
          rcases List.mem_append.mp hp with h1 | h2
          · exact hacc p h1
          · rw [List.mem_singleton.mp h2]
            exact hnext
      · simp only [buildAux, hb, if_neg hc] at hfail ⊢
        exact hclose

/-- C4: the reload protocol is all-or-nothing. If `load_config` raises,
nothing changes. If building the new profile set fails, the manager (profiles
with their last state, and the poll interval) is unchanged, the open-session
pool is exactly what it was before the attempt (every session opened during
the failed attempt was closed), and no running profile was closed. Only on
full success are the new profiles and the new poll interval installed and the
old profiles closed (with the restore-on-exit policy). -/
theorem C4_reload_all_or_nothing (m : Manager) (w : World) (cfg : Config)
    (canOpen : ProfileCfg → Bool) (hwf : World.wf w) :
    reload_config m w none canOpen = (m, w, [])
    ∧ ((build_managed_profiles canOpen cfg w).1 = none →
        (reload_config m w (some cfg) canOpen).1 = m
        ∧ (reload_config m w (some cfg) canOpen).2.1.openSessions = w.openSessions
        ∧ (reload_config m w (some cfg) canOpen).2.2 = [])
    ∧ (∀ newps, (build_managed_profiles canOpen cfg w).1 = some newps →
        (reload_config m w (some cfg) canOpen).1.profiles = newps
        ∧ (reload_config m w (some cfg) canOpen).1.poll_interval =
            pymax 0.5 cfg.poll_interval
        ∧ (reload_config m w (some cfg) canOpen).2.2 =
            m.profiles.map (fun p => ⟨p.gpu_index, p.fan_index, m.restore_on_exit⟩)
        ∧ ∀ p ∈ m.profiles,
            p.session ∉ (reload_config m w (some cfg) canOpen).2.1.openSessions) := by
  refine ⟨rfl, ?_, ?_⟩
  · intro hfail
    rcases hb : build_managed_profiles canOpen cfg w with ⟨r, w2⟩
    rw [hb] at hfail
    simp only at hfail
    subst hfail
    have hw2 : w2.openSessions = w.openSessions := by
      have := buildAux_fail_open canOpen cfg.profiles [] w w hwf (by simp) (le_refl _)
        (by simp) (by rw [show buildAux canOpen [] w cfg.profiles =
          build_managed_profiles canOpen cfg w from rfl, hb])
      rw [show buildAux canOpen [] w cfg.profiles =
        build_managed_profiles canOpen cfg w from rfl, hb] at this
      exact this
    simp only [reload_config, hb]
    exact ⟨trivial, hw2, trivial⟩
  · intro newps hsucc
    rcases hb : build_managed_profiles canOpen cfg w with ⟨r, w2⟩
    rw [hb] at hsucc
    simp only at hsucc
    subst hsucc
    simp only [reload_config, hb, set_profiles]
    exact ⟨trivial, trivial, trivial,
      fun p hp => closed_session_not_open w2 m.profiles p hp⟩

/-- A running profile, manager, session pool, config and a hardware oracle
that refuses to open anything, for the C4 witness. -/
def c4Profile : ProfileState := ⟨0, 0, [⟨30, 25⟩], 2, 0, some 25, some 40⟩

def c4Manager : Manager := ⟨[c4Profile], 2, true⟩

def c4World : World := ⟨1, [0]⟩

def c4Config : Config := ⟨3, [⟨0, 0, [⟨40, 50⟩], 2⟩]⟩

def c4CanOpen : ProfileCfg → Bool := fun _ => false

/-- Witness for C4 at a concrete manager, pool and config whose build fails. -/
theorem C4_witness :
    reload_config c4Manager c4World none c4CanOpen = (c4Manager, c4World, [])
    ∧ ((build_managed_profiles c4CanOpen c4Config c4World).1 = none →
        (reload_config c4Manager c4World (some c4Config) c4CanOpen).1 = c4Manager
        ∧ (reload_config c4Manager c4World (some c4Config) c4CanOpen).2.1.openSessions =
            c4World.openSessions
        ∧ (reload_config c4Manager c4World (some c4Config) c4CanOpen).2.2 = [])
    ∧ (∀ newps, (build_managed_profiles c4CanOpen c4Config c4World).1 = some newps →
        (reload_config c4Manager c4World (some c4Config) c4CanOpen).1.profiles = newps
        ∧ (reload_config c4Manager c4World (some c4Config) c4CanOpen).1.poll_interval =
            pymax 0.5 c4Config.poll_interval
        ∧ (reload_config c4Manager c4World (some c4Config) c4CanOpen).2.2 =
            c4Manager.profiles.map
              (fun p => ⟨p.gpu_index, p.fan_index, c4Manager.restore_on_exit⟩)
        ∧ ∀ p ∈ c4Manager.profiles,
            p.session ∉
              (reload_config c4Manager c4World (some c4Config) c4CanOpen).2.1.openSessions) :=
  C4_reload_all_or_nothing c4Manager c4World c4Config c4CanOpen
    (by unfold World.wf c4World; decide)

/-- The per-profile loop of `FanManager.loop_once` over the profile list;
`temps i` is the temperature reported by the i-th profile's controller. -/
def loopProfiles (temps : ℕ → ℚ) : ℕ → List ProfileState → List (ProfileState × Option ℚ)
  | _, [] => []
  | i, p :: rest => loopStep p (temps i) :: loopProfiles temps (i + 1) rest

/-- `FanManager.loop_once` (source lines 410-437): process every profile once,
returning the stepped manager and the commanded speed per profile. -/
def loop_once (m : Manager) (temps : ℕ → ℚ) : Manager × List (Option ℚ) :=
  ({ m with profiles := (loopProfiles temps 0 m.profiles).map Prod.fst },
   (loopProfiles temps 0 m.profiles).map Prod.snd)

/-- `FanManager.__init__` (source lines 363-379): the poll interval is floored
at 0.5 and `restore_on_exit = not args.no_restore_on_exit`. -/
def mkManager (profiles : List ProfileState) (poll : ℚ) (noRestoreFlag : Bool) : Manager :=
  { profiles := profiles, poll_interval := pymax 0.5 poll,
    restore_on_exit := !noRestoreFlag }

/-- The `--once` branch of `main` (source lines 658-663): one `loop_once`,
then `set_profiles([])`, which closes every profile with
`restore=self.restore_on_exit`. Returns the final manager, the commanded
speeds of the single cycle, the session pool, and the close events. -/
def once_mode (m : Manager) (w : World) (temps : ℕ → ℚ) :
    Manager × List (Option ℚ) × World × List CloseEvent :=
  ((set_profiles (loop_once m temps).1 w []).1,
   (loop_once m temps).2,
   (set_profiles (loop_once m temps).1 w []).2.1,
   (set_profiles (loop_once m temps).1 w []).2.2)

theorem loopStep_preserves_id (p : ProfileState) (t : ℚ) :
    (loopStep p t).1.gpu_index = p.gpu_index ∧ (loopStep p t).1.fan_index = p.fan_index := by
  by_cases h : should_apply p (FanCurve.value p.points t) = true
  · simp [loopStep, apply_speed, h]
  · simp [loopStep, apply_speed, h]

theorem loopProfiles_length (temps : ℕ → ℚ) :
    ∀ (i : ℕ) (ps : List ProfileState), (loopProfiles temps i ps).length = ps.length := by
  intro i ps
  induction ps generalizing i with
  | nil => rfl
  | cons p rest ih => simp [loopProfiles, ih]

theorem loopProfiles_close_events (temps : ℕ → ℚ) (r : Bool) :
    ∀ (i : ℕ) (ps : List ProfileState),
      ((loopProfiles temps i ps).map Prod.fst).map
          (fun p => (⟨p.gpu_index, p.fan_index, r⟩ : CloseEvent)) =
        ps.map (fun p => (⟨p.gpu_index, p.fan_index, r⟩ : CloseEvent)) := by
  intro i ps
  induction ps generalizing i with
  | nil => rfl
  | cons p rest ih =>
    simp only [loopProfiles, List.map_cons]
    rw [ih]
    obtain ⟨h1, h2⟩ := loopStep_preserves_id p (temps i)
    simp [h1, h2]

/-- A profile for the C9 counterexample (never applied yet). -/
def c9Profile : ProfileState := ⟨0, 0, [⟨30, 25⟩], 2, 0, none, none⟩

/-- C9 counterexample: with the default flags (`--no-restore-on-exit` absent,
so `restore_on_exit = True`), the one-shot mode's shutdown closes the profile
with restore ENABLED, not disabled as claimed. -/
theorem C9_counterexample :
    (once_mode (mkManager [c9Profile] 2 false) ⟨1, [0]⟩ (fun _ => 40)).2.2.2 =
      [⟨0, 0, true⟩]
    ∧ (⟨0, 0, true⟩ : CloseEvent) ≠ ⟨0, 0, false⟩ := by
  constructor
  · simp only [once_mode, set_profiles, loop_once, mkManager]
    rw [loopProfiles_close_events (fun _ => 40) (!false) 0 [c9Profile]]
    rfl
  · simp

/-- C9 (amended): one-shot mode performs exactly one iteration of the cycle
body (one commanded-speed slot per profile) and then immediately runs the
shutdown sequence over all profiles — but with automatic-control restore
governed by the `restore_on_exit` policy (`not no_restore_flag`, enabled by
default), not unconditionally disabled. -/
theorem C9_once_runs_one_cycle_then_shutdown (profiles : List ProfileState)
    (poll : ℚ) (noRestoreFlag : Bool) (w : World) (temps : ℕ → ℚ) :
    (once_mode (mkManager profiles poll noRestoreFlag) w temps).2.1 =
        (loop_once (mkManager profiles poll noRestoreFlag) temps).2
    ∧ (once_mode (mkManager profiles poll noRestoreFlag) w temps).2.1.length =
        profiles.length
    ∧ (once_mode (mkManager profiles poll noRestoreFlag) w temps).1.profiles = []
    ∧ (once_mode (mkManager profiles poll noRestoreFlag) w temps).2.2.2 =
        profiles.map (fun p => (⟨p.gpu_index, p.fan_index, !noRestoreFlag⟩ : CloseEvent)) := by
  refine ⟨rfl, ?_, rfl, ?_⟩
  · show ((loopProfiles temps 0 profiles).map Prod.snd).length = _
    rw [List.length_map, loopProfiles_length]
  · simp only [once_mode, set_profiles, loop_once, mkManager]
    exact loopProfiles_close_events temps (!noRestoreFlag) 0 profiles

/-- C6 counterexample: on the temperature sequence 45, 45.5, 60 the code does
not produce the claimed applied speeds 45 / skip / 75 — the step curve gives
25 at 45 °C and 45 at 60 °C. -/
theorem C6_counterexample :
    runTemps c6Profile [45, 45.5, 60] ≠ [some 45, none, some 75] := by
  norm_num [runTemps, loopStep, c6Profile, sortPoints, List.insertionSort,
    List.orderedInsert, FanCurve.value, valueAux, should_apply, apply_speed,
    pymax, pymin, pyabs, curveLE]

/-- C6 (amended): the scenario (curve `[(30,25),(50,45),(70,75)]`, hysteresis 2,
temperatures 45, 45.5, 60) yields applied speed 25 on the first (forced) cycle,
no apply on the second, and applied speed 45 on the third. -/
theorem C6_scenario_applied_speeds :
    runTemps c6Profile [45, 45.5, 60] = [some 25, none, some 45] := by
  norm_num [runTemps, loopStep, c6Profile, sortPoints, List.insertionSort,
    List.orderedInsert, FanCurve.value, valueAux, should_apply, apply_speed,
    pymax, pymin, pyabs, curveLE]

/-
Section 4: configuration normalization (`normalize_config`, source lines
66-127), over a model of the JSON values Python manipulates. Python's
`float()` and `int()` on strings are abstract oracles (`sf`, `si`): every
theorem holds for any parser. A `none` result of the normalizer means the
Python function raises an uncaught exception.
-/

/-- A JSON value as Python's `json.loads` produces it (floats as rationals). -/
inductive JVal where
  | null
  | bool (b : Bool)
  | num (q : ℚ)
  | str (s : String)
  | arr (xs : List JVal)
  | obj (fields : List (String × JVal))
deriving Inhabited

/-- Python truthiness of a JSON value. -/
def truthy : JVal → Bool
  | .null => false
  | .bool b => b
  | .num q => decide (q ≠ 0)
  | .str s => decide (s ≠ "")
  | .arr xs => !xs.isEmpty
  | .obj f => !f.isEmpty

/-- `dict.get(key, default)`. -/
def getD (fields : List (String × JVal)) (k : String) (d : JVal) : JVal :=
  match fields.find? (fun kv => kv.1 == k) with
  | some kv => kv.2
  | none => d

/-- Python `int()` truncates a float toward zero. -/
def ratTrunc (q : ℚ) : ℤ := if 0 ≤ q then ⌊q⌋ else ⌈q⌉

/-- Python `float(x)` on a JSON value; `sf` is `float` applied to a string,
`none` = raises `TypeError`/`ValueError` (always caught at the use sites). -/
def toFloat (sf : String → Option ℚ) : JVal → Option ℚ
  | .num q => some q
  | .bool b => some (if b then 1 else 0)
  | .str s => sf s
  | _ => none

/-- Python `int(x)` on a JSON value; `si` is `int` applied to a string. -/
def toInt (si : String → Option ℤ) : JVal → Option ℤ
  | .num q => some (ratTrunc q)
  | .bool b => some (if b then 1 else 0)
  | .str s => si s
  | _ => none

/-- `for x in v`: what Python iterates over; `none` = `TypeError` (not
iterable). A string yields its characters, a dict its keys. -/
def toIterable : JVal → Option (List JVal)
  | .arr xs => some xs
  | .str s => some (s.toList.map (fun c => JVal.str (String.mk [c])))
  | .obj f => some (f.map (fun kv => JVal.str kv.1))
  | _ => none

/-- `v["key"]`; `none` = `KeyError`/`TypeError` (caught at the use site). -/
def subscr (v : JVal) (k : String) : Option JVal :=
  match v with
  | .obj f => (f.find? (fun kv => kv.1 == k)).map (fun kv => kv.2)
  | _ => none

/-- `DEFAULT_CURVE` (source lines 16-23) as (temperature, speed) pairs. -/
def defaultCurvePoints : List (ℚ × ℚ) :=
  [(30, 25), (40, 35), (50, 45), (60, 60), (70, 75), (80, 90)]

/-- One curve point as the JSON dict `{"temperature": t, "speed": s}`. -/
def pointJ (ts : ℚ × ℚ) : JVal :=
  .obj [("temperature", .num ts.1), ("speed", .num ts.2)]

def defaultCurveJ : JVal := .arr (defaultCurvePoints.map pointJ)

/-- A normalized profile dict in the key order the source writes it
(lines 112-119). -/
def profileJ (g f : ℤ) (pts : List (ℚ × ℚ)) (h : ℚ) : JVal :=
  .obj [("gpu_index", .num (g : ℚ)), ("fan_index", .num (f : ℚ)),
        ("curve", .arr (pts.map pointJ)), ("hysteresis", .num h)]

/-- `DEFAULT_PROFILE` (source lines 24-29). -/
def defaultProfileJ : JVal := profileJ 0 0 defaultCurvePoints 2

/-- Sorting by temperature: `curve.sort(key=lambda item: item["temperature"])`. -/
def pairLE (a b : ℚ × ℚ) : Prop := a.1 ≤ b.1

instance : DecidableRel pairLE := fun a b => inferInstanceAs (Decidable (a.1 ≤ b.1))

instance : IsTotal (ℚ × ℚ) pairLE := ⟨fun a b => le_total a.1 b.1⟩

instance : IsTrans (ℚ × ℚ) pairLE := ⟨fun _ _ _ h h2 => le_trans h h2⟩

def sortPairs (l : List (ℚ × ℚ)) : List (ℚ × ℚ) := l.insertionSort pairLE

/-- One point of the curve loop (source lines 95-101): subscript
`temperature` and `speed`, convert both to float, clamp the speed to
[0, 100]; any failure skips the point (`continue`). -/
def normPoint (sf : String → Option ℚ) (p : JVal) : Option (ℚ × ℚ) :=
  match subscr p "temperature" with
  | none => none
  | some tv =>
    match toFloat sf tv with
    | none => none
    | some t =>
      match subscr p "speed" with
      | none => none
      | some sv =>
        match toFloat sf sv with
        | none => none
        | some s => some (t, pymax 0 (pymin 100 s))

/-- The synthesized single-profile list used when `profiles` is missing,
empty or not a list (source lines 75-83). -/
def synthProfiles (cfg : List (String × JVal)) : List JVal :=
  [.obj [("gpu_index", getD cfg "gpu_index" (.num 0)),
         ("fan_index", getD cfg "fan_index" (.num 0)),
         ("curve", getD cfg "curve" defaultCurveJ),
         ("hysteresis", getD cfg "hysteresis" (.num 2))]]

/-- The list of entries the profiles loop iterates (source lines 74-83). -/
def profilesInput (cfg : List (String × JVal)) : List JVal :=
  match getD cfg "profiles" .null with
  | .arr xs => if xs.isEmpty then synthProfiles cfg else xs
  | _ => synthProfiles cfg

/-- One entry of the profiles loop (source lines 86-119). `none` = an
uncaught exception (`AttributeError` on a non-dict entry, `TypeError` on a
truthy non-iterable curve); `some none` = entry skipped (`continue`);
`some (some v)` = a normalized profile. -/
def normEntry (si : String → Option ℤ) (sf : String → Option ℚ)
    (cfg : List (String × JVal)) (entry : JVal) : Option (Option JVal) :=
  match entry with
  | .obj ef =>
    match toInt si (getD ef "gpu_index" (.num 0)),
        toInt si (getD ef "fan_index" (.num 0)) with
    | some g, some f =>
      match toIterable (if truthy (getD ef "curve" .null) then getD ef "curve" .null
          else defaultCurveJ) with
      | none => none
      | some items =>
        some (some (profileJ g f
          (sortPairs (if (items.filterMap (normPoint sf)).isEmpty then defaultCurvePoints
            else items.filterMap (normPoint sf)))
          (match toFloat sf (getD ef "hysteresis" (getD cfg "hysteresis" (.num 2))) with
            | some hv => hv
            | none => 2)))
    | _, _ => some none
  | _ => none

/-- The profiles loop: skip skipped entries, abort on an uncaught exception. -/
def normEntries (si : String → Option ℤ) (sf : String → Option ℚ)
    (cfg : List (String × JVal)) : List JVal → Option (List JVal)
  | [] => some []
  | e :: rest =>
    match normEntry si sf cfg e with
    | none => none
    | some none => normEntries si sf cfg rest
    | some (some v) =>
      match normEntries si sf cfg rest with
      | none => none
      | some vs => some (v :: vs)

/-- The poll-interval computation (source lines 68-72). -/
def normPoll (sf : String → Option ℚ) (cfg : List (String × JVal)) : ℚ :=
  match toFloat sf (getD cfg "poll_interval" (.num 2)) with
  | some p => p
  | none => 2

/-- `normalize_config(raw_cfg)` (source lines 66-127) on a JSON dict. -/
def normalize_config (si : String → Option ℤ) (sf : String → Option ℚ)
    (cfg : List (String × JVal)) : Option JVal :=
  match normEntries si sf cfg (profilesInput cfg) with
  | none => none
  | some kept =>
    some (.obj [("poll_interval", .num (pymax 0.5 (normPoll sf cfg))),
                ("profiles", .arr (if kept.isEmpty then [defaultProfileJ] else kept))])

theorem le_pymax_left (a b : ℚ) : a ≤ pymax a b := by
  unfold pymax
  split
  · exact le_refl a
  · exact le_of_not_le (by assumption)

theorem pymax_right_of_le (a b : ℚ) (h : a ≤ b) : pymax a b = b := by
  unfold pymax
  split
  · exact le_antisymm h (by assumption)
  · rfl

theorem clamp_eq_self (s : ℚ) (h0 : 0 ≤ s) (h1 : s ≤ 100) :
    pymax 0 (pymin 100 s) = s := by
  unfold pymin
  split
  · rw [pymax_right_of_le 0 100 (by norm_num)]
    exact (le_antisymm h1 (by assumption)).symm
  · rw [pymax_right_of_le 0 s h0]

theorem clamp_bounds (s : ℚ) :
    0 ≤ pymax 0 (pymin 100 s) ∧ pymax 0 (pymin 100 s) ≤ 100 := by
  rw [pymax_eq_max, pymin_eq_min]
  exact ⟨le_max_left 0 _, max_le (by norm_num) (min_le_left 100 s)⟩

theorem ratTrunc_intCast (n : ℤ) : ratTrunc (n : ℚ) = n := by
  unfold ratTrunc
  split
  · exact Int.floor_intCast n
  · exact Int.ceil_intCast n

/-- The shape `normalize_config` guarantees of every profile it emits:
integer gpu/fan indices, a non-empty temperature-sorted curve with speeds
clamped to [0, 100], and a float hysteresis. -/
def GoodProfile (v : JVal) : Prop :=
  ∃ g f pts h, v = profileJ g f pts h ∧ pts ≠ []
    ∧ List.Sorted pairLE pts
    ∧ ∀ p ∈ pts, 0 ≤ p.2 ∧ p.2 ≤ 100

theorem getD_head (k : String) (v : JVal) (rest : List (String × JVal)) (d : JVal) :
    getD ((k, v) :: rest) k d = v := by
  simp [getD]

theorem getD_tail (k k2 : String) (v : JVal) (rest : List (String × JVal)) (d : JVal)
    (hne : (k2 == k) = false) :
    getD ((k2, v) :: rest) k d = getD rest k d := by
  simp [getD, List.find?_cons_of_neg, hne]

theorem normPoint_pointJ (sf : String → Option ℚ) (p : ℚ × ℚ)
    (h0 : 0 ≤ p.2) (h1 : p.2 ≤ 100) :
    normPoint sf (pointJ p) = some p := by
  obtain ⟨t, s⟩ := p
  simp only at h0 h1
  have e1 : subscr (pointJ (t, s)) "temperature" = some (.num t) := rfl
  have e2 : subscr (pointJ (t, s)) "speed" = some (.num s) := rfl
  simp only [normPoint, e1, e2, toFloat]
  rw [clamp_eq_self s h0 h1]

theorem filterMap_normPoint_pointJ (sf : String → Option ℚ) (pts : List (ℚ × ℚ))
    (hb : ∀ p ∈ pts, 0 ≤ p.2 ∧ p.2 ≤ 100) :
    (pts.map pointJ).filterMap (normPoint sf) = pts := by
  induction pts with
  | nil => rfl
  | cons p rest ih =>
    rw [List.map_cons, List.filterMap_cons,
      normPoint_pointJ sf p (hb p (List.mem_cons_self p rest)).1
        (hb p (List.mem_cons_self p rest)).2,
      ih (fun q hq => hb q (List.mem_cons_of_mem p hq))]

theorem normEntry_self (si : String → Option ℤ) (sf : String → Option ℚ)
    (cfgF : List (String × JVal)) (v : JVal) (hv : GoodProfile v) :
    normEntry si sf cfgF v = some (some v) := by
  obtain ⟨g, f, pts, h, rfl, hne, hsorted, hb⟩ := hv
  have hmapne : (pts.map pointJ).isEmpty = false := by
    rw [List.isEmpty_eq_false]
    simpa using hne
  have hptsne : pts.isEmpty = false := by
    rw [List.isEmpty_eq_false]
    exact hne
  have e1 : getD [("gpu_index", JVal.num (g : ℚ)), ("fan_index", JVal.num (f : ℚ)),
      ("curve", JVal.arr (pts.map pointJ)), ("hysteresis", JVal.num h)] "gpu_index"
      (JVal.num 0) = JVal.num (g : ℚ) := rfl
  have e2 : getD [("gpu_index", JVal.num (g : ℚ)), ("fan_index", JVal.num (f : ℚ)),
      ("curve", JVal.arr (pts.map pointJ)), ("hysteresis", JVal.num h)] "fan_index"
      (JVal.num 0) = JVal.num (f : ℚ) := rfl
  have e3 : getD [("gpu_index", JVal.num (g : ℚ)), ("fan_index", JVal.num (f : ℚ)),
      ("curve", JVal.arr (pts.map pointJ)), ("hysteresis", JVal.num h)] "curve"
      JVal.null = JVal.arr (pts.map pointJ) := rfl
  have e4 : getD [("gpu_index", JVal.num (g : ℚ)), ("fan_index", JVal.num (f : ℚ)),
      ("curve", JVal.arr (pts.map pointJ)), ("hysteresis", JVal.num h)] "hysteresis"
      (getD cfgF "hysteresis" (JVal.num 2)) = JVal.num h := rfl
  simp only [normEntry, profileJ, e1, e2, e3, e4, toInt, toFloat, ratTrunc_intCast,
    truthy, hmapne, Bool.not_false, if_true, toIterable,
    filterMap_normPoint_pointJ sf pts hb, hptsne, Bool.false_eq_true, if_false,
    sortPairs, hsorted.insertionSort_eq]

theorem normEntries_self (si : String → Option ℤ) (sf : String → Option ℚ)
    (cfgF : List (String × JVal)) (l : List JVal) (h : ∀ v ∈ l, GoodProfile v) :
    normEntries si sf cfgF l = some l := by
  induction l with
  | nil => rfl
  | cons v rest ih =>
    simp only [normEntries, normEntry_self si sf cfgF v (h v (List.mem_cons_self v rest)),
      ih (fun q hq => h q (List.mem_cons_of_mem v hq))]

theorem normPoint_bounds (sf : String → Option ℚ) (j : JVal) (q : ℚ × ℚ)
    (h : normPoint sf j = some q) : 0 ≤ q.2 ∧ q.2 ≤ 100 := by
  unfold normPoint at h
  split at h
  · exact absurd h (by simp)
  · split at h
    · exact absurd h (by simp)
    · split at h
      · exact absurd h (by simp)
      · split at h
        · exact absurd h (by simp)
        · rw [Option.some_inj] at h
          rw [← h]
          exact clamp_bounds _

theorem sortPairs_ne_nil (l : List (ℚ × ℚ)) (h : l ≠ []) : sortPairs l ≠ [] := by
  intro hnil
  apply h
  have hlen := (List.perm_insertionSort pairLE l).length_eq
  rw [show sortPairs l = l.insertionSort pairLE from rfl] at hnil
  rw [hnil] at hlen
  simpa using (List.length_eq_zero.mp hlen.symm)

theorem normEntry_good (si : String → Option ℤ) (sf : String → Option ℚ)
    (cfgF : List (String × JVal)) (e v : JVal)
    (h : normEntry si sf cfgF e = some (some v)) : GoodProfile v := by
  cases e with
  | obj ef =>
    simp only [normEntry] at h
    rcases hg : toInt si (getD ef "gpu_index" (JVal.num 0)) with _ | g
    · rw [hg] at h
      exact absurd h (by simp)
    rcases hf : toInt si (getD ef "fan_index" (JVal.num 0)) with _ | f
    · rw [hg, hf] at h
      exact absurd h (by simp)
    rw [hg, hf] at h
    rcases hi : toIterable (if truthy (getD ef "curve" JVal.null) = true
        then getD ef "curve" JVal.null else defaultCurveJ) with _ | items
    · rw [hi] at h
      exact absurd h (by simp)
    rw [hi] at h
    simp only [Option.some_inj] at h
    refine ⟨g, f, _, _, h.symm, ?_, List.sorted_insertionSort pairLE _, ?_⟩
    · apply sortPairs_ne_nil
      split
      · simp [defaultCurvePoints]
      · next hfm =>
        rw [← List.isEmpty_eq_false]
        simp only [Bool.not_eq_true] at hfm
        exact hfm
    · intro p hp
      have hp2 : p ∈ (if (items.filterMap (normPoint sf)).isEmpty = true
          then defaultCurvePoints else items.filterMap (normPoint sf)) :=
        (List.perm_insertionSort pairLE _).mem_iff.mp hp
      split at hp2
      · have hall : ∀ q ∈ defaultCurvePoints, 0 ≤ q.2 ∧ q.2 ≤ 100 := by decide
        exact hall p hp2
      · obtain ⟨j, _, hj⟩ := List.mem_filterMap.mp hp2
        exact normPoint_bounds sf j p hj
  | null => exact absurd h (by simp [normEntry])
  | bool b => exact absurd h (by simp [normEntry])
  | num q => exact absurd h (by simp [normEntry])
  | str s => exact absurd h (by simp [normEntry])
  | arr xs => exact absurd h (by simp [normEntry])

theorem normEntries_good (si : String → Option ℤ) (sf : String → Option ℚ)
    (cfgF : List (String × JVal)) (l : List JVal) :
    ∀ kept, normEntries si sf cfgF l = some kept → ∀ v ∈ kept, GoodProfile v := by
  induction l with
  | nil =>
    intro kept h
    simp only [normEntries, Option.some_inj] at h
    subst h
    intro v hv
    exact absurd hv (List.not_mem_nil v)
  | cons e rest ih =>
    intro kept h
    rcases he : normEntry si sf cfgF e with _ | ov
    · rw [normEntries, he] at h
      exact absurd h (by simp)
    · cases ov with
      | none =>
        rw [normEntries, he] at h
        exact ih kept h
      | some v0 =>
        rcases hr : normEntries si sf cfgF rest with _ | vs
        · rw [normEntries, he, hr] at h
          exact absurd h (by simp)
        · rw [normEntries, he, hr, Option.some_inj] at h
          subst h
          intro v hv
          rcases List.mem_cons.mp hv with rfl | hv2
          · exact normEntry_good si sf cfgF e v he
          · exact ih vs hr v hv2

theorem default_profile_good : GoodProfile defaultProfileJ :=
  ⟨0, 0, defaultCurvePoints, 2, rfl, by decide, by decide, by decide⟩

theorem normalize_shape (si : String → Option ℤ) (sf : String → Option ℚ)
    (cfg : List (String × JVal)) (out : JVal)
    (h : normalize_config si sf cfg = some out) :
    ∃ P profs,
      out = JVal.obj [("poll_interval", JVal.num P), ("profiles", JVal.arr profs)]
      ∧ (0.5 : ℚ) ≤ P ∧ profs ≠ [] ∧ ∀ v ∈ profs, GoodProfile v := by
  rcases he : normEntries si sf cfg (profilesInput cfg) with _ | kept
  · rw [normalize_config, he] at h
    exact absurd h (by simp)
  · rw [normalize_config, he, Option.some_inj] at h
    refine ⟨pymax 0.5 (normPoll sf cfg),
      if kept.isEmpty then [defaultProfileJ] else kept, h.symm,
      le_pymax_left _ _, ?_, ?_⟩
    · split
      · simp
      · next hkm =>
        rw [← List.isEmpty_eq_false]
        simp only [Bool.not_eq_true] at hkm
        exact hkm
    · intro v hv
      split at hv
      · rw [List.mem_singleton.mp hv]
        exact default_profile_good
      · exact normEntries_good si sf cfg (profilesInput cfg) kept he v hv

theorem normalize_of_good (si : String → Option ℤ) (sf : String → Option ℚ)
    (P : ℚ) (profs : List JVal) (hP : (0.5 : ℚ) ≤ P)
    (hne : profs ≠ []) (hgood : ∀ v ∈ profs, GoodProfile v) :
    normalize_config si sf
        [("poll_interval", JVal.num P), ("profiles", JVal.arr profs)] =
      some (JVal.obj [("poll_interval", JVal.num P), ("profiles", JVal.arr profs)]) := by
  have hke : profs.isEmpty = false := List.isEmpty_eq_false.mpr hne
  have hpi : profilesInput [("poll_interval", JVal.num P), ("profiles", JVal.arr profs)] =
      profs := by
    have e : getD [("poll_interval", JVal.num P), ("profiles", JVal.arr profs)]
        "profiles" JVal.null = JVal.arr profs := rfl
    simp only [profilesInput, e, hke, Bool.false_eq_true, if_false]
  have hpoll : normPoll sf [("poll_interval", JVal.num P), ("profiles", JVal.arr profs)] =
      P := rfl
  simp only [normalize_config, hpi, normEntries_self si sf _ profs hgood, hpoll,
    pymax_right_of_le 0.5 P hP, hke, Bool.false_eq_true, if_false]

/-- C5: `normalize_config` is idempotent — whenever it is defined (does not
raise) on a raw input, its output is a dict on which it is defined again and
returns the very same output. -/
theorem C5_normalize_idempotent (si : String → Option ℤ) (sf : String → Option ℚ)
    (cfg : List (String × JVal)) (out : JVal)
    (h : normalize_config si sf cfg = some out) :
    ∃ outFields, out = JVal.obj outFields
      ∧ normalize_config si sf outFields = some out := by
  obtain ⟨P, profs, rfl, hP, hne, hgood⟩ := normalize_shape si sf cfg out h
  exact ⟨_, rfl, normalize_of_good si sf P profs hP hne hgood⟩

/-- The normalized form of the default configuration. -/
def c5Out : JVal :=
  JVal.obj [("poll_interval", JVal.num 2), ("profiles", JVal.arr [defaultProfileJ])]

/-- Witness for C5 at a concrete already-normalized snapshot. -/
theorem C5_witness :
    ∃ outFields, c5Out = JVal.obj outFields
      ∧ normalize_config (fun _ => none) (fun _ => none) outFields = some c5Out :=
  C5_normalize_idempotent (fun _ => none) (fun _ => none)
    [("poll_interval", JVal.num 2), ("profiles", JVal.arr [defaultProfileJ])] c5Out
    (normalize_of_good (fun _ => none) (fun _ => none) 2 [defaultProfileJ]
      (by norm_num) (by simp)
      (fun v hv => by rw [List.mem_singleton.mp hv]; exact default_profile_good))

/-- C8 counterexample: a snapshot whose `profiles` list contains a non-dict
entry makes `normalize_config` raise (`AttributeError` on `entry.get`),
modelled as `none`. -/
theorem C8_counterexample :
    normalize_config (fun _ => none) (fun _ => none)
      [("profiles", JVal.arr [JVal.num 7])] = none := rfl

/-- The `curve` value does not make the `for point in curve_raw` loop raise:
it is either falsy (replaced by the default curve) or iterable. -/
def curveOkB (v : JVal) : Bool := !truthy v || (toIterable v).isSome

/-- A profile entry the loop can process without an uncaught exception:
a dict whose `curve` value is falsy or iterable. -/
def entryOkB : JVal → Bool
  | .obj ef => curveOkB (getD ef "curve" .null)
  | _ => false

theorem normEntry_isSome (si : String → Option ℤ) (sf : String → Option ℚ)
    (cfgF : List (String × JVal)) (e : JVal) (h : entryOkB e = true) :
    (normEntry si sf cfgF e).isSome = true := by
  cases e with
  | obj ef =>
    simp only [entryOkB, curveOkB, Bool.or_eq_true, Bool.not_eq_true'] at h
    simp only [normEntry]
    rcases toInt si (getD ef "gpu_index" (JVal.num 0)) with _ | g
    · simp
    rcases toInt si (getD ef "fan_index" (JVal.num 0)) with _ | f
    · simp
    rcases h with h | h
    · rw [if_neg (by simp [h])]
      simp [defaultCurveJ, toIterable]
    · by_cases ht : truthy (getD ef "curve" JVal.null) = true
      · rw [if_pos ht]
        rcases Option.isSome_iff_exists.mp h with ⟨items, hit⟩
        simp [hit]
      · rw [if_neg ht]
        simp [defaultCurveJ, toIterable]
  | null => simp [entryOkB] at h
  | bool b => simp [entryOkB] at h
  | num q => simp [entryOkB] at h
  | str s => simp [entryOkB] at h
  | arr xs => simp [entryOkB] at h

theorem normEntries_isSome (si : String → Option ℤ) (sf : String → Option ℚ)
    (cfgF : List (String × JVal)) (l : List JVal)
    (h : ∀ e ∈ l, entryOkB e = true) :
    (normEntries si sf cfgF l).isSome = true := by
  induction l with
  | nil => rfl
  | cons e rest ih =>
    have h1 := normEntry_isSome si sf cfgF e (h e (List.mem_cons_self e rest))
    rcases Option.isSome_iff_exists.mp h1 with ⟨ov, hov⟩
    have h2 := ih (fun q hq => h q (List.mem_cons_of_mem e hq))
    rcases Option.isSome_iff_exists.mp h2 with ⟨vs, hvs⟩
    cases ov with
    | none => simp only [normEntries, hov]; exact h2
    | some v0 => simp [normEntries, hov, hvs]

/-- C8 (amended): on every raw snapshot dict whose profile entries (as the
loop sees them) are dicts with a falsy-or-iterable `curve`, normalization
succeeds and returns a snapshot with the poll interval floored at 0.5 and a
non-empty profile list whose curves are sorted, non-empty and speed-clamped
to [0, 100] (`GoodProfile`); malformed numeric fields have fallen back to
defaults along the way. -/
theorem C8_normalize_total_on_dict_entries (si : String → Option ℤ)
    (sf : String → Option ℚ) (cfg : List (String × JVal))
    (h : ∀ e ∈ profilesInput cfg, entryOkB e = true) :
    ∃ P profs,
      normalize_config si sf cfg =
        some (JVal.obj [("poll_interval", JVal.num P), ("profiles", JVal.arr profs)])
      ∧ (0.5 : ℚ) ≤ P ∧ profs ≠ [] ∧ ∀ v ∈ profs, GoodProfile v := by
  have hs := normEntries_isSome si sf cfg (profilesInput cfg) h
  rcases Option.isSome_iff_exists.mp hs with ⟨kept, hk⟩
  have hnorm : ∃ out, normalize_config si sf cfg = some out := by
    rw [normalize_config, hk]
    exact ⟨_, rfl⟩
  rcases hnorm with ⟨out, hout⟩
  obtain ⟨P, profs, rfl, hP, hne, hgood⟩ := normalize_shape si sf cfg out hout
  exact ⟨P, profs, hout, hP, hne, hgood⟩

/-- Witness for C8 at the empty snapshot (everything defaulted). -/
theorem C8_witness :
    ∃ P profs,
      normalize_config (fun _ => none) (fun _ => none) [] =
        some (JVal.obj [("poll_interval", JVal.num P), ("profiles", JVal.arr profs)])
      ∧ (0.5 : ℚ) ≤ P ∧ profs ≠ [] ∧ ∀ v ∈ profs, GoodProfile v :=
  C8_normalize_total_on_dict_entries (fun _ => none) (fun _ => none) [] (by decide)
